import Mathlib

/-!
Verification development for the grid-based grass-ecosystem simulator
(`simulation` translation unit: occupancy grid, tile grid, entt-style
organism store with a `Dead` marker and entity pool, per-tick systems,
CSV serializer).  The C++ source is shallowly embedded: float values are
modelled as exact rationals, the mt19937 stream and `<cmath>` trig are
abstracted as oracle functions (a run of the program corresponds to one
choice of oracles), and the entt registry is modelled as a list of
organism records indexed by creation order, with the `Dead` component as
a boolean field.
-/

namespace Ecosim

/-- Grid width in cells (source: `WIDTH = 200`). -/
def WIDTH : ℤ := 200

/-- Grid height in cells (source: `HEIGHT = 200`). -/
def HEIGHT : ℤ := 200

/-- Number of simulated ticks (source: `MAX_TICKS = 5000`). -/
def MAX_TICKS : ℕ := 5000

/-- Ticks per day at equinox (source: `DAY_LENGTH = 100`). -/
def DAY_LENGTH : ℤ := 100

/-- Season cycle length (source: `SEASON_LENGTH = 4 * DAY_LENGTH`). -/
def SEASON_LENGTH : ℤ := 4 * DAY_LENGTH

/-- Ticks between serializer flushes (source: `SAVE_INTERVAL = 5`). -/
def SAVE_INTERVAL : ℕ := 5

/-- Seeding probability per soil tile (source: `INITIAL_GRASS_PROB = 0.02f`). -/
def INITIAL_GRASS_PROB : ℚ := 0.02

/-- Ticks between rain events (source: `RAIN_INTERVAL = 150`). -/
def RAIN_INTERVAL : ℕ := 150

/-- Water added to each soil tile by rain (source: `RAIN_AMOUNT = 1.0f`). -/
def RAIN_AMOUNT : ℚ := 1.0

/-- Energy needed to reproduce (source: `REPRODUCE_ENERGY = 0.55f`). -/
def REPRODUCE_ENERGY : ℚ := 0.55

/-- Maturity fraction of max age (source: `MATURITY_AGE_SCALE = 0.3f`). -/
def MATURITY_AGE_SCALE : ℚ := 0.3

/-- The float constant `PI` from the source, as an exact decimal. -/
def PI : ℚ := 3.14159265358979323846

/-- C-style cast from a floating value to `int`: truncation toward zero. -/
def truncQ (q : ℚ) : ℤ := if q < 0 then ⌈q⌉ else ⌊q⌋

/-- `std::clamp` on integers (source: `std::clamp(int(x),0,WIDTH-1)`). -/
def clampZ (v lo hi : ℤ) : ℤ := if v < lo then lo else if hi < v then hi else v

/-- `std::clamp` on floats, modelled on rationals. -/
def clampQ (v lo hi : ℚ) : ℚ := if v < lo then lo else if hi < v then hi else v

/-- Row-major flat index of a cell (source: `y * WIDTH + x`, used by both
the occupancy vector and the tile grid). -/
def idx (x y : ℤ) : ℤ := y * WIDTH + x

/-- Tile type enumeration (source: `enum class TileType { Soil, Water }`). -/
inductive TileType
  | Soil
  | Water
deriving DecidableEq

/-- One tile's abiotic state (source: `struct Tile`), defaults included. -/
structure Tile where
  type : TileType := TileType.Soil
  water : ℚ := 10.0
  nutrient : ℚ := 5000.0
deriving DecidableEq

/-- Heritable traits (source: `struct Genes`). -/
structure Genes where
  sunlightEff : ℚ
  waterEff : ℚ
  nutrientEff : ℚ
  decayRate : ℚ
deriving DecidableEq

/-- One organism slot of the store: the four components
`Position`, `Genes`, `Age`, `Energy` plus the `Dead` marker.  Slots are
identified by their index in the store list (entity ids in creation
order); a pooled (recycled) slot keeps its components and has
`dead = true`. -/
structure Org where
  x : ℤ
  y : ℤ
  genes : Genes
  age : ℤ
  maxAge : ℤ
  energy : ℚ
  dead : Bool
deriving DecidableEq

/-- Tile-grid read (source: `at(x,y)`), on a total flat-indexed map. -/
def atXY (g : ℤ → Tile) (x y : ℤ) : Tile := g (idx x y)

/-- Tile-grid write at one cell. -/
def setTile (g : ℤ → Tile) (x y : ℤ) (t : Tile) : ℤ → Tile :=
  fun i => if i = idx x y then t else g i

/-- Occupancy read (source: `isOccupied`). -/
def isOccupied (occ : ℤ → Bool) (x y : ℤ) : Bool := occ (idx x y)

/-- Occupancy set (source: `setOccupied`). -/
def setOcc (occ : ℤ → Bool) (x y : ℤ) : ℤ → Bool :=
  fun i => if i = idx x y then true else occ i

/-- Occupancy clear (source: `clearOccupied`). -/
def clearOcc (occ : ℤ → Bool) (x y : ℤ) : ℤ → Bool :=
  fun i => if i = idx x y then false else occ i

/-- The three death causes counted by the simulation. -/
inductive DeathCause
  | water
  | energy
  | oldAge
deriving DecidableEq

/-- The death-condition chain evaluated in the main per-organism pass
(source main loop: `if(t.water <= 0.0f) ... else if(en.value <= 0.2f) ...
else if(age.age >= age.maxAge) ...`), on the post-uptake water and energy
and the post-increment age. -/
def deathCheck (waterLvl en : ℚ) (age maxAge : ℤ) : Option DeathCause :=
  if waterLvl ≤ 0 then some DeathCause.water
  else if en ≤ 0.2 then some DeathCause.energy
  else if maxAge ≤ age then some DeathCause.oldAge
  else none

/-- Nutrient returned to the dying organism's tile (source:
`std::max(en.value, 0.5f)` for water deaths, `std::max(en.value, 1.0f)`
for energy and old-age deaths). -/
def deathCredit (c : DeathCause) (en : ℚ) : ℚ :=
  match c with
  | DeathCause.water => max en 0.5
  | DeathCause.energy => max en 1.0
  | DeathCause.oldAge => max en 1.0

/-- The nutrient value of the organism's tile after the death-condition
chain: on death the credit `deathCredit` is added, otherwise the
post-uptake value stands. -/
def creditNutrient (n en : ℚ) : Option DeathCause → ℚ
  | some dc => n + deathCredit dc en
  | none => n

/-- The random draws the main pass may consume for one organism:
`u1`, `u2` are the `uni(rng)` draws for the neighbour offset, `g1`-`g4`
the `gauss(rng)` draws mutating the four genes, `g5` the draw for the
offspring's max age. -/
structure Choice where
  u1 : ℚ
  u2 : ℚ
  g1 : ℚ
  g2 : ℚ
  g3 : ℚ
  g4 : ℚ
  g5 : ℚ

/-- A buffered birth (source: `std::tuple<Position, Genes, Age, Energy>`
pushed onto `births`). -/
structure Birth where
  x : ℤ
  y : ℤ
  genes : Genes
  age : ℤ
  maxAge : ℤ
  energy : ℚ
deriving DecidableEq

/-- Mutable state threaded through the main per-organism pass: the store
and tile grid, the death counters, the energy statistics accumulators,
and the `toKill` / `births` buffers. -/
structure PassState where
  orgs : List Org
  grid : ℤ → Tile
  energyDeaths : ℕ
  waterDeaths : ℕ
  oldAgeDeaths : ℕ
  sum : ℚ
  count : ℕ
  toKill : List ℕ
  births : List Birth

/-- The body of one main-pass iteration for a live organism `o` in slot
`i` (source: the `viewAlive.each` lambda): uptake of sunlight, water and
nutrient, ageing, the death-condition chain with nutrient return, and
buffered reproduction.  `occ` is the occupancy index, which the pass
reads but never writes; `ga0` is the `grassAlive` value at the start of
the tick, which steps 4-5 of the tick alone update. -/
def passBody (occ : ℤ → Bool) (sunI : ℚ) (ga0 : ℕ) (c : Choice) (i : ℕ)
    (o : Org) (ps : PassState) : PassState :=
    let t := atXY ps.grid o.x o.y
    let en1 := o.energy + sunI * o.genes.sunlightEff * 0.1
    let takenW := min t.water (o.genes.waterEff * 0.05)
    let water1 := t.water - takenW
    let en2 := en1 + takenW
    let takenN := min t.nutrient (o.genes.nutrientEff * 0.05)
    let nutrient1 := t.nutrient - takenN
    let en3 := en2 + takenN
    let age1 := o.age + 1
    let cause := deathCheck water1 en3 age1 o.maxAge
    let nutrient2 := creditNutrient nutrient1 en3 cause
    let grid1 := setTile ps.grid o.x o.y
      { type := t.type, water := water1, nutrient := nutrient2 }
    let dx := truncQ (c.u1 * 3) - 1
    let dy := truncQ (c.u2 * 3) - 1
    let nx := o.x + dx
    let ny := o.y + dy
    let doBirth :=
      decide ((ga0 : ℤ) < WIDTH * HEIGHT) &&
      (decide (MATURITY_AGE_SCALE * (o.maxAge : ℚ) ≤ (age1 : ℚ)) &&
        decide (REPRODUCE_ENERGY ≤ en3)) &&
      (decide (0 ≤ nx) && decide (nx < WIDTH) &&
        decide (0 ≤ ny) && decide (ny < HEIGHT) &&
        decide ((atXY grid1 nx ny).type = TileType.Soil) &&
        !(isOccupied occ nx ny))
    let b : Birth :=
      { x := nx
        y := ny
        genes :=
          { sunlightEff := o.genes.sunlightEff + c.g1
            waterEff := o.genes.waterEff + c.g2
            nutrientEff := o.genes.nutrientEff + c.g3
            decayRate := o.genes.decayRate + c.g4 * 0.02 }
        age := 0
        maxAge := max 10 (truncQ ((o.maxAge : ℚ) + c.g5 * 10 + 0.1))
        energy := 0.5 }
    { orgs := ps.orgs.set i
        { o with age := age1, energy := if doBirth then en3 * 0.1 else en3 }
      grid := grid1
      energyDeaths := ps.energyDeaths + (if cause = some DeathCause.energy then 1 else 0)
      waterDeaths := ps.waterDeaths + (if cause = some DeathCause.water then 1 else 0)
      oldAgeDeaths := ps.oldAgeDeaths + (if cause = some DeathCause.oldAge then 1 else 0)
      sum := ps.sum + en3
      count := ps.count + 1
      toKill := if cause.isSome then ps.toKill ++ [i] else ps.toKill
      births := if doBirth then ps.births ++ [b] else ps.births }

/-- One iteration of the main pass: slot `i` is processed when it exists
and is not marked dead (source: the `viewAlive` view carries
`entt::exclude<Dead>`). -/
def passStep (occ : ℤ → Bool) (sunI : ℚ) (ga0 : ℕ) (c : Choice) (i : ℕ)
    (ps : PassState) : PassState :=
  match ps.orgs[i]? with
  | none => ps
  | some o => if o.dead then ps else passBody occ sunI ga0 c i o ps

/-- The full main pass: every slot of the store is visited once, in index
order; dead slots are skipped by `passStep` (source: the cached
`viewAlive` view with `entt::exclude<Dead>`). -/
def runPass (occ : ℤ → Bool) (sunI : ℚ) (ga0 : ℕ) (ch : ℕ → Choice)
    (ps0 : PassState) : PassState :=
  (List.range ps0.orgs.length).foldl
    (fun ps i => passStep occ sunI ga0 (ch i) i ps) ps0

/-- The mutable state touched by the buffered death and birth loops:
the store, the occupancy index, the live counter `grassAlive` and the
entity pool (most recently pushed entity first, matching the
`push_back` / `pop_back` LIFO discipline). -/
structure BState where
  orgs : List Org
  occ : ℤ → Bool
  ga : ℕ
  pool : List ℕ

/-- Applying one buffered death (source: the `for(auto e : toKill)` body):
mark the slot dead, clear its cell in the occupancy index, decrement
`grassAlive`, push the slot on the entity pool. -/
def killOne (s : BState) (e : ℕ) : BState :=
  match s.orgs[e]? with
  | none => s
  | some o =>
    { orgs := s.orgs.set e { o with dead := true }
      occ := clearOcc s.occ o.x o.y
      ga := s.ga - 1
      pool := e :: s.pool }

/-- Materializing one buffered birth (source: the `for (auto b : births)`
body): reuse the most recently pooled slot if one exists (overwriting all
four components and removing the `Dead` marker), otherwise append a fresh
slot; then mark the target cell occupied and increment `grassAlive`.
No occupancy or tile re-check happens here. -/
def birthOne (s : BState) (b : Birth) : BState :=
  let newOrg : Org :=
    { x := b.x, y := b.y, genes := b.genes, age := b.age,
      maxAge := b.maxAge, energy := b.energy, dead := false }
  match s.pool with
  | e :: rest =>
    { orgs := s.orgs.set e newOrg
      occ := setOcc s.occ b.x b.y
      ga := s.ga + 1
      pool := rest }
  | [] =>
    { orgs := s.orgs ++ [newOrg]
      occ := setOcc s.occ b.x b.y
      ga := s.ga + 1
      pool := [] }

/-- The rain system (source: `if(tick % RAIN_INTERVAL == 0) for(auto &t :
grid) if(t.type==TileType::Soil) t.water += RAIN_AMOUNT;`). -/
def rain (g : ℤ → Tile) : ℤ → Tile :=
  fun i =>
    if 0 ≤ i ∧ i < WIDTH * HEIGHT ∧ (g i).type = TileType.Soil
    then { type := (g i).type, water := (g i).water + RAIN_AMOUNT,
           nutrient := (g i).nutrient }
    else g i

/-- The whole process-scoped simulation state at a tick boundary. -/
structure SimState where
  grid : ℤ → Tile
  occ : ℤ → Bool
  orgs : List Org
  pool : List ℕ
  grassAlive : ℕ
  energyDeaths : ℕ
  waterDeaths : ℕ
  oldAgeDeaths : ℕ
  avgGrassEnergy : ℚ

/-- The pass state at the start of a tick (`toKill.clear(); births.clear()`). -/
def initPS (st : SimState) : PassState :=
  { orgs := st.orgs, grid := st.grid,
    energyDeaths := st.energyDeaths, waterDeaths := st.waterDeaths,
    oldAgeDeaths := st.oldAgeDeaths, sum := 0, count := 0,
    toKill := [], births := [] }

/-- The main per-organism pass of one tick, from a tick-boundary state. -/
def passOf (st : SimState) (ch : ℕ → Choice) (sunI : ℚ) : PassState :=
  runPass st.occ sunI st.grassAlive ch (initPS st)

/-- The buffered death loop of one tick (source: `for(auto e : toKill)`),
started from the post-pass store and the tick-start occupancy, live
counter and pool. -/
def deathsOf (st : SimState) (ps : PassState) : BState :=
  ps.toKill.foldl killOne
    { orgs := ps.orgs, occ := st.occ, ga := st.grassAlive, pool := st.pool }

/-- The buffered birth loop of one tick (source: `for (auto b : births)`),
run after the death loop. -/
def birthsOf (st : SimState) (ps : PassState) : BState :=
  ps.births.foldl birthOne (deathsOf st ps)

/-- One simulation tick without the serializer calls (source main loop
body, in order: the main pass, the buffered death loop, the buffered
birth loop, the rain system, the mean-energy statistic). -/
def tickCore (st : SimState) (ch : ℕ → Choice) (sunI : ℚ) (tick : ℕ) :
    SimState :=
  let ps := passOf st ch sunI
  let s2 := birthsOf st ps
  { grid := if tick % RAIN_INTERVAL = 0 then rain ps.grid else ps.grid
    occ := s2.occ
    orgs := s2.orgs
    pool := s2.pool
    grassAlive := s2.ga
    energyDeaths := ps.energyDeaths
    waterDeaths := ps.waterDeaths
    oldAgeDeaths := ps.oldAgeDeaths
    avgGrassEnergy := if ps.count = 0 then 0 else ps.sum / (ps.count : ℚ) }

/-- One row of the vegetation buffer (source: the tuple pushed onto
`vegCache`: tick, id, x, y, age, maxAge, energy and the four genes). -/
structure VegRow where
  tick : ℕ
  id : ℕ
  x : ℤ
  y : ℤ
  age : ℤ
  maxAge : ℤ
  energy : ℚ
  sunEff : ℚ
  watEff : ℚ
  nutEff : ℚ
  decay : ℚ
deriving DecidableEq

/-- One row of the statistics buffer (source: the tuple pushed onto
`statsCache`). -/
structure StatsRow where
  tick : ℕ
  totalEntities : ℕ
  energyDeaths : ℕ
  waterDeaths : ℕ
  oldAgeDeaths : ℕ
  avgGrassEnergy : ℚ
deriving DecidableEq

/-- Serializer state: the two in-memory row buffers and the two output
streams they are flushed to (each stream modelled as the list of data
rows appended so far). -/
structure SerState where
  vegCache : List VegRow
  statsCache : List StatsRow
  vegStream : List VegRow
  statsStream : List StatsRow
deriving DecidableEq

/-- The rows `Serializer::saveTick` appends to the vegetation buffer for
one tick: one row per entity of the `view<Position,Age,Energy,Genes>`
iteration — every slot of the store holds all four components, so dead
pooled slots are included (the view carries no `exclude<Dead>`). -/
def vegRowsOf (tick : ℕ) (orgs : List Org) : List VegRow :=
  orgs.enum.map fun p =>
    { tick := tick, id := p.1, x := p.2.x, y := p.2.y, age := p.2.age,
      maxAge := p.2.maxAge, energy := p.2.energy,
      sunEff := p.2.genes.sunlightEff, watEff := p.2.genes.waterEff,
      nutEff := p.2.genes.nutrientEff, decay := p.2.genes.decayRate }

/-- `Serializer::saveTick`: buffer the vegetation rows and one stats row,
then zero the death counters and the mean-energy statistic. -/
def saveTick (tick : ℕ) (totalEntities : ℕ) (sim : SimState)
    (ser : SerState) : SimState × SerState :=
  ({ sim with energyDeaths := 0, waterDeaths := 0, oldAgeDeaths := 0,
              avgGrassEnergy := 0 },
   { ser with
      vegCache := ser.vegCache ++ vegRowsOf tick sim.orgs
      statsCache := ser.statsCache ++
        [{ tick := tick, totalEntities := totalEntities,
           energyDeaths := sim.energyDeaths, waterDeaths := sim.waterDeaths,
           oldAgeDeaths := sim.oldAgeDeaths,
           avgGrassEnergy := sim.avgGrassEnergy }] })

/-- `Serializer::flushVegCache`: move the vegetation buffer to its stream. -/
def flushVegCache (ser : SerState) : SerState :=
  { ser with vegStream := ser.vegStream ++ ser.vegCache, vegCache := [] }

/-- `Serializer::flushStatsCache`: move the stats buffer to its stream. -/
def flushStatsCache (ser : SerState) : SerState :=
  { ser with statsStream := ser.statsStream ++ ser.statsCache,
             statsCache := [] }

/-- `Serializer::saveStatsCache`: flush both buffers. -/
def saveStatsCache (ser : SerState) : SerState :=
  flushStatsCache (flushVegCache ser)

/-- The serialization step of one tick (source: `ser.saveTick(tick,
grassAlive, reg); if(tick % SAVE_INTERVAL == 0) ser.saveStatsCache();`).
`saveTick` runs every tick; the flush runs only on save-interval ticks. -/
def serStep (tick : ℕ) (sim : SimState) (ser : SerState) :
    SimState × SerState :=
  let p := saveTick tick sim.grassAlive sim ser
  if tick % SAVE_INTERVAL = 0 then (p.1, saveStatsCache p.2) else p

/-- One complete tick of the main loop, simulation systems then
serialization. -/
def fullTick (tick : ℕ) (ch : ℕ → Choice) (sunI : ℚ)
    (p : SimState × SerState) : SimState × SerState :=
  serStep tick (tickCore p.1 ch sunI tick) p.2

/-- The platform's `<cmath>` trigonometry, abstracted: any fixed pair of
functions (a run of the binary corresponds to one such pair). -/
structure TrigOracle where
  cosA : ℚ → ℚ
  sinA : ℚ → ℚ

/-- The day length used by `sunlight` (source: `DAY_LENGTH * (1.0f +
0.2f * std::sin(2*PI*seasonalTick/SEASON_LENGTH))`). -/
def dayLenOf (sinA : ℚ → ℚ) (tick : ℕ) : ℚ :=
  (DAY_LENGTH : ℚ) *
    (1 + 0.2 * sinA (2 * PI * (((tick : ℤ) % SEASON_LENGTH : ℤ) : ℚ) /
      ((SEASON_LENGTH : ℤ) : ℚ)))

/-- `sunlight(tick)`: triangular day/night wave with seasonally varying
day length, clamped to the unit interval.  A pure function of the tick
and of the (fixed) sine implementation: it reads none of the mutable
simulation state. -/
def sunlight (sinA : ℚ → ℚ) (tick : ℕ) : ℚ :=
  let dayLen := dayLenOf sinA tick
  let tmod : ℚ := (((tick : ℤ) % truncQ dayLen : ℤ) : ℚ)
  clampQ (1 - |tmod / dayLen * 2 - 1|) 0 1

/-- The `std::mt19937_64 Wrng(seed)` draws consumed by `generateWorld`:
per river, a start-angle draw (`edgeAng(Wrng)`, an integer in 0..359) and
one turn draw (`uni(Wrng)`, in [0,1)) per step.  A function of the seed,
abstracting the deterministic mt19937 stream. -/
structure WorldDraws where
  edgeAng : ℕ → ℤ
  turn : ℕ → ℕ → ℚ

/-- Lake lap of terrain generation (source: the first double loop of
`generateWorld`): inside the centred circle of radius `r`, the tile
becomes Water with water 10 and nutrient 0. -/
def lakeCell (g : ℤ → Tile) (p : ℤ × ℤ) : ℤ → Tile :=
  let dx := p.1 - WIDTH / 2
  let dy := p.2 - HEIGHT / 2
  let r := min WIDTH HEIGHT / 6
  if dx * dx + dy * dy ≤ r * r then
    setTile g p.1 p.2 { type := TileType.Water, water := 10.0, nutrient := 0.0 }
  else g

/-- All grid cells in the row-major visiting order of the source loops. -/
def cellList : List (ℤ × ℤ) :=
  (List.range HEIGHT.toNat).flatMap fun y =>
    (List.range WIDTH.toNat).map fun x => ((x : ℤ), (y : ℤ))

/-- The walking state of one river: the grid so far, the heading and the
float position. -/
structure RiverState where
  g : ℤ → Tile
  angle : ℚ
  x : ℚ
  y : ℚ

/-- One step of a river walk (source: the inner `for(int step...)` loop):
mark the clamped integer cell as Water with water 8 (nutrient is left as
it was), then perturb the heading and advance. -/
def riverStep (T : TrigOracle) (d : WorldDraws) (i : ℕ) (s : RiverState)
    (step : ℕ) : RiverState :=
  let xi := clampZ (truncQ s.x) 0 (WIDTH - 1)
  let yi := clampZ (truncQ s.y) 0 (HEIGHT - 1)
  let t := atXY s.g xi yi
  let g1 := setTile s.g xi yi
    { type := TileType.Water, water := 8.0, nutrient := t.nutrient }
  let angle1 := s.angle + (d.turn i step - 0.5) * 0.4
  { g := g1, angle := angle1, x := s.x + T.cosA angle1, y := s.y + T.sinA angle1 }

/-- One full river (source: one iteration of the `for(int i=0;i<12;i++)`
loop): start on the lake perimeter at a drawn angle, walk `WIDTH` steps. -/
def runRiver (T : TrigOracle) (d : WorldDraws) (g0 : ℤ → Tile) (i : ℕ) :
    ℤ → Tile :=
  let angle0 := (d.edgeAng i : ℚ) * PI / 180
  let r := min WIDTH HEIGHT / 6
  let s0 : RiverState :=
    { g := g0, angle := angle0
      x := ((WIDTH / 2 : ℤ) : ℚ) + (r : ℚ) * T.cosA angle0
      y := ((HEIGHT / 2 : ℤ) : ℚ) + (r : ℚ) * T.sinA angle0 }
  ((List.range WIDTH.toNat).foldl (riverStep T d i) s0).g

/-- `generateWorld(seed)`: default-fill the grid, carve the lake, then
grow 12 rivers.  All randomness comes from the seed-determined local
generator `Wrng(seed)`, abstracted as `O seed`; no other mutable state is
read. -/
def generateWorld (O : ℕ → WorldDraws) (T : TrigOracle) (seed : ℕ) :
    ℤ → Tile :=
  let d := O seed
  let g1 := cellList.foldl lakeCell (fun _ => ({} : Tile))
  (List.range 12).foldl (runRiver T d) g1

/-- The global-rng draws consumed by `seedGrass` for one cell, keyed by
the cell's flat index: the seeding probability draw `u`, the four gene
draws and the age-variance draw. -/
structure SeedChoice where
  u : ℚ
  g1 : ℚ
  g2 : ℚ
  g3 : ℚ
  g4 : ℚ
  g5 : ℚ

/-- One cell of `seedGrass`: on an unoccupied soil tile, with probability
`INITIAL_GRASS_PROB`, create a fresh organism with gene mean 1 (decay
mean 0.5), age 0, max age `50 + int(gauss*10.0+0.5)`, energy 0.5, and
mark the cell occupied. -/
def seedCell (grid : ℤ → Tile) (SC : ℤ → SeedChoice) (s : BState)
    (p : ℤ × ℤ) : BState :=
  let c := SC (idx p.1 p.2)
  if (atXY grid p.1 p.2).type = TileType.Soil ∧
      isOccupied s.occ p.1 p.2 = false ∧ c.u < INITIAL_GRASS_PROB then
    let g : Genes :=
      { sunlightEff := 1 + c.g1, waterEff := 1 + c.g2,
        nutrientEff := 1 + c.g3, decayRate := 0.5 + c.g4 * 0.1 }
    let agePlus := truncQ (c.g5 * 10.0 + 0.5)
    let o : Org :=
      { x := p.1, y := p.2, genes := g, age := 0, maxAge := 50 + agePlus,
        energy := 0.5, dead := false }
    { s with orgs := s.orgs ++ [o], occ := setOcc s.occ p.1 p.2,
             ga := s.ga + 1 }
  else s

/-- The store, occupancy index and live counter produced by
`seedGrass(reg)`, run over the world generated with seed 42 and starting
from the all-clear occupancy vector, empty registry and zero counter. -/
def seedResult (T : TrigOracle) (O : ℕ → WorldDraws) (SC : ℤ → SeedChoice) :
    BState :=
  cellList.foldl (seedCell (generateWorld O T 42) SC)
    { orgs := [], occ := fun _ => false, ga := 0, pool := [] }

/-- The program state right after `generateWorld(42); seedGrass(reg);`
and the construction of the serializer (buffers and streams empty of
data rows). -/
def initState (T : TrigOracle) (O : ℕ → WorldDraws) (SC : ℤ → SeedChoice) :
    SimState × SerState :=
  ({ grid := generateWorld O T 42, occ := (seedResult T O SC).occ,
     orgs := (seedResult T O SC).orgs, pool := [],
     grassAlive := (seedResult T O SC).ga, energyDeaths := 0,
     waterDeaths := 0, oldAgeDeaths := 0, avgGrassEnergy := 0 },
   { vegCache := [], statsCache := [], vegStream := [], statsStream := [] })

/-- The simulation after `n` ticks of the main loop: `runSim ... 0` is
the seeded initial state, `runSim ... (n+1)` runs tick `n` on
`runSim ... n`.  `CH t i` gives the per-organism draws of tick `t`. -/
def runSim (T : TrigOracle) (O : ℕ → WorldDraws) (SC : ℤ → SeedChoice)
    (CH : ℕ → ℕ → Choice) : ℕ → SimState × SerState
  | 0 => initState T O SC
  | n + 1 => fullTick n (CH n) (sunlight T.sinA n) (runSim T O SC CH n)

/-- Number of live slots of the store (organisms whose `Dead` marker is
not set). -/
def liveCount (orgs : List Org) : ℕ := orgs.countP fun o => !o.dead

/-- The consistency of the entity pool with the store: pooled slot ids
are distinct and every pooled slot is a dead slot of the store. -/
def PoolOk (orgs : List Org) (pool : List ℕ) : Prop :=
  pool.Nodup ∧ ∀ e ∈ pool, ∃ o, orgs[e]? = some o ∧ o.dead = true

/-- Projection of a slot to the fields the main pass never writes: the
death marker and the position. -/
def skelOf (o : Org) : Bool × ℤ × ℤ := (o.dead, o.x, o.y)

/-- Two stores that agree slot by slot on death marker and position. -/
def SameSkel (l1 l2 : List Org) : Prop :=
  ∀ j : ℕ, (l1[j]?).map skelOf = (l2[j]?).map skelOf

theorem sameSkel_refl (l : List Org) : SameSkel l l := fun _ => rfl

theorem sameSkel_symm {l1 l2 : List Org} (h : SameSkel l1 l2) : SameSkel l2 l1 :=
  fun j => (h j).symm

theorem sameSkel_trans {l1 l2 l3 : List Org} (h1 : SameSkel l1 l2)
    (h2 : SameSkel l2 l3) : SameSkel l1 l3 :=
  fun j => (h1 j).trans (h2 j)

theorem sameSkel_some {l1 l2 : List Org} (h : SameSkel l1 l2) {j : ℕ} {o : Org}
    (ho : l1[j]? = some o) :
    ∃ o2, l2[j]? = some o2 ∧ o2.dead = o.dead ∧ o2.x = o.x ∧ o2.y = o.y := by
  have hj := h j
  rw [ho] at hj
  cases h2 : l2[j]? with
  | none => rw [h2] at hj; simp at hj
  | some o2 =>
    rw [h2] at hj
    simp only [Option.map_some', Option.some.injEq, skelOf, Prod.mk.injEq] at hj
    exact ⟨o2, rfl, hj.1.symm, hj.2.1.symm, hj.2.2.symm⟩

theorem sameSkel_liveCount {l1 l2 : List Org} (h : SameSkel l1 l2) :
    liveCount l1 = liveCount l2 := by
  induction l1 generalizing l2 with
  | nil =>
    cases l2 with
    | nil => rfl
    | cons b t2 => have h0 := h 0; simp at h0
  | cons a t ih =>
    cases l2 with
    | nil => have h0 := h 0; simp at h0
    | cons b t2 =>
      have h0 := h 0
      simp only [List.getElem?_cons_zero, Option.map_some', Option.some.injEq,
        skelOf, Prod.mk.injEq] at h0
      have ht : SameSkel t t2 := fun j => by
        have := h (j + 1)
        simpa using this
      simp only [liveCount, List.countP_cons] at *
      rw [ih ht, h0.1]

theorem sameSkel_set {l : List Org} {i : ℕ} {o o2 : Org} (ho : l[i]? = some o)
    (hd : o2.dead = o.dead) (hx : o2.x = o.x) (hy : o2.y = o.y) :
    SameSkel l (l.set i o2) := by
  intro j
  by_cases hj : j = i
  · subst hj
    have hlen : j < l.length := (List.getElem?_eq_some.mp ho).1
    rw [ho, List.getElem?_set_eq_of_lt _ hlen]
    simp [skelOf, hd, hx, hy]
  · rw [List.getElem?_set_ne (fun hh => hj hh.symm)]

/-- Induction principle for a left fold over `List.range n`. -/
theorem foldl_range_ind {α : Type} (f : α → ℕ → α) (P : α → ℕ → Prop) (n : ℕ)
    (a : α) (h0 : P a 0)
    (hs : ∀ x k, k < n → P x k → P (f x k) (k + 1)) :
    P ((List.range n).foldl f a) n := by
  induction n with
  | zero => simpa using h0
  | succ m ih =>
    rw [List.range_succ, List.foldl_append]
    simp only [List.foldl_cons, List.foldl_nil]
    exact hs _ m (Nat.lt_succ_self m)
      (ih (fun x k hk hx => hs x k (Nat.lt_succ_of_lt hk) hx))

theorem liveCount_set_dead {l : List Org} {e : ℕ} {o : Org}
    (ho : l[e]? = some o) (hl : o.dead = false) :
    liveCount (l.set e { o with dead := true }) + 1 = liveCount l := by
  obtain ⟨hlt, hget⟩ := List.getElem?_eq_some.mp ho
  have hset := List.countP_set (fun x => !x.dead) l e { o with dead := true } hlt
  rw [hget] at hset
  have hpos : 0 < l.countP (fun x => !x.dead) := by
    rw [List.countP_pos_iff]
    exact ⟨o, List.getElem?_mem ho, by simp [hl]⟩
  simp only [liveCount, hset, hl]
  simp
  omega

theorem liveCount_set_alive {l : List Org} {e : ℕ} {o : Org}
    (ho : l[e]? = some o) (hd : o.dead = true) {o2 : Org} (h2 : o2.dead = false) :
    liveCount (l.set e o2) = liveCount l + 1 := by
  obtain ⟨hlt, hget⟩ := List.getElem?_eq_some.mp ho
  have hset := List.countP_set (fun x => !x.dead) l e o2 hlt
  rw [hget] at hset
  simp only [liveCount, hset, hd, h2]
  simp

theorem liveCount_append_live (l : List Org) {o : Org} (h : o.dead = false) :
    liveCount (l ++ [o]) = liveCount l + 1 := by
  simp [liveCount, List.countP_append, List.countP_cons, h]

/-- The slot written back by `passBody` differs from the input slot only
in age and energy. -/
theorem passBody_orgs (occ : ℤ → Bool) (sunI : ℚ) (ga0 : ℕ) (c : Choice)
    (i : ℕ) (o : Org) (ps : PassState) :
    ∃ en, (passBody occ sunI ga0 c i o ps).orgs =
      ps.orgs.set i { o with age := o.age + 1, energy := en } :=
  ⟨_, rfl⟩

/-- `passBody` either leaves `toKill` alone or appends exactly the
processed slot id. -/
theorem passBody_toKill (occ : ℤ → Bool) (sunI : ℚ) (ga0 : ℕ) (c : Choice)
    (i : ℕ) (o : Org) (ps : PassState) :
    (passBody occ sunI ga0 c i o ps).toKill = ps.toKill ∨
    (passBody occ sunI ga0 c i o ps).toKill = ps.toKill ++ [i] := by
  dsimp only [passBody]
  split
  · right; rfl
  · left; rfl

/-- `passBody` either leaves the birth buffer alone or appends one birth
whose target cell tested unoccupied against the pass's occupancy index. -/
theorem passBody_births (occ : ℤ → Bool) (sunI : ℚ) (ga0 : ℕ) (c : Choice)
    (i : ℕ) (o : Org) (ps : PassState) :
    (passBody occ sunI ga0 c i o ps).births = ps.births ∨
    ∃ b, (passBody occ sunI ga0 c i o ps).births = ps.births ++ [b] ∧
      occ (idx b.x b.y) = false := by
  dsimp only [passBody]
  split
  next h =>
    right
    refine ⟨_, rfl, ?_⟩
    simp only [Bool.and_eq_true, Bool.not_eq_true', decide_eq_true_eq] at h
    simpa [isOccupied] using h.2.2

  next => left; rfl

/-- `passBody` rewrites exactly the organism's own tile, and the written
tile has nonnegative water and nutrient whatever the gene values are:
the two uptakes are clamped to the available stock and the death credit
only adds. -/
theorem passBody_grid (occ : ℤ → Bool) (sunI : ℚ) (ga0 : ℕ) (c : Choice)
    (i : ℕ) (o : Org) (ps : PassState) :
    ∃ t : Tile, (passBody occ sunI ga0 c i o ps).grid =
      setTile ps.grid o.x o.y t ∧ 0 ≤ t.water ∧ 0 ≤ t.nutrient := by
  refine ⟨_, rfl, ?_, ?_⟩
  · exact sub_nonneg.mpr (min_le_left _ _)
  · show (0 : ℚ) ≤ creditNutrient _ _ _
    have h1 : (0 : ℚ) ≤
        (atXY ps.grid o.x o.y).nutrient -
          min (atXY ps.grid o.x o.y).nutrient (o.genes.nutrientEff * 0.05) :=
      sub_nonneg.mpr (min_le_left _ _)
    have h2 : ∀ (dc : DeathCause) (en : ℚ), (0 : ℚ) ≤ deathCredit dc en := by
      intro dc en
      cases dc <;> simp only [deathCredit] <;>
        exact le_trans (by norm_num) (le_max_right _ _)
    generalize deathCheck _ _ _ _ = dcOpt
    cases dcOpt with
    | none => exact h1
    | some dc => exact add_nonneg h1 (h2 dc _)

/-- The invariant carried along the main pass, after the first `k` slots
have been visited: death markers and positions are untouched, the kill
buffer holds distinct ids of slots already visited that were live at the
start of the pass, and every buffered birth tested its target cell
unoccupied against the tick-start occupancy index. -/
structure PassInv (occ : ℤ → Bool) (ps0 ps : PassState) (k : ℕ) : Prop where
  skel : SameSkel ps0.orgs ps.orgs
  killBound : ∀ e ∈ ps.toKill, e < k
  killNodup : ps.toKill.Nodup
  killLive : ∀ e ∈ ps.toKill, ∃ o, ps0.orgs[e]? = some o ∧ o.dead = false
  birthFree : ∀ b ∈ ps.births, occ (idx b.x b.y) = false

theorem passStep_inv {occ : ℤ → Bool} {sunI : ℚ} {ga0 : ℕ} {c : Choice}
    {k : ℕ} {ps0 ps : PassState} (h : PassInv occ ps0 ps k) :
    PassInv occ ps0 (passStep occ sunI ga0 c k ps) (k + 1) := by
  have weaken : ∀ e ∈ ps.toKill, e < k + 1 :=
    fun e he => Nat.lt_succ_of_lt (h.killBound e he)
  cases ho : ps.orgs[k]? with
  | none =>
    simp only [passStep, ho]
    exact ⟨h.skel, weaken, h.killNodup, h.killLive, h.birthFree⟩
  | some o =>
    cases hd : o.dead with
    | true =>
      simp only [passStep, ho, hd, if_true]
      exact ⟨h.skel, weaken, h.killNodup, h.killLive, h.birthFree⟩
    | false =>
      simp only [passStep, ho, hd, Bool.false_eq_true, if_false]
      obtain ⟨en, horgs⟩ := passBody_orgs occ sunI ga0 c k o ps
      have hskel : SameSkel ps0.orgs (passBody occ sunI ga0 c k o ps).orgs := by
        rw [horgs]
        exact sameSkel_trans h.skel (sameSkel_set ho rfl rfl rfl)
      have hlive_k : ∃ o0, ps0.orgs[k]? = some o0 ∧ o0.dead = false := by
        obtain ⟨o0, ho0, hd0, _, _⟩ := sameSkel_some (sameSkel_symm h.skel) ho
        exact ⟨o0, ho0, by rw [hd0, hd]⟩
      constructor
      · exact hskel
      · rcases passBody_toKill occ sunI ga0 c k o ps with htk | htk <;> rw [htk]
        · exact weaken
        · intro e he
          rcases List.mem_append.mp he with he1 | he1
          · exact weaken e he1
          · rw [List.mem_singleton.mp he1]; exact Nat.lt_succ_self k
      · rcases passBody_toKill occ sunI ga0 c k o ps with htk | htk <;> rw [htk]
        · exact h.killNodup
        · have hnotmem : k ∉ ps.toKill := fun hmem =>
            Nat.lt_irrefl k (h.killBound k hmem)
          simp [List.nodup_append, h.killNodup, hnotmem]
      · rcases passBody_toKill occ sunI ga0 c k o ps with htk | htk <;> rw [htk]
        · exact h.killLive
        · intro e he
          rcases List.mem_append.mp he with he1 | he1
          · exact h.killLive e he1
          · rw [List.mem_singleton.mp he1]; exact hlive_k
      · rcases passBody_births occ sunI ga0 c k o ps with hb | ⟨b, hb, hfree⟩ <;>
          rw [hb]
        · exact h.birthFree
        · intro b2 hb2
          rcases List.mem_append.mp hb2 with hb3 | hb3
          · exact h.birthFree b2 hb3
          · rw [List.mem_singleton.mp hb3]; exact hfree

/-- The invariant established by the whole main pass of a tick. -/
theorem passOf_inv (st : SimState) (ch : ℕ → Choice) (sunI : ℚ) :
    PassInv st.occ (initPS st) (passOf st ch sunI) st.orgs.length := by
  have h0 : PassInv st.occ (initPS st) (initPS st) 0 := by
    refine ⟨sameSkel_refl _, ?_, ?_, ?_, ?_⟩ <;> simp [initPS]
  exact foldl_range_ind _ (fun ps k => PassInv st.occ (initPS st) ps k) _ _
    h0 (fun x k _ hx => passStep_inv hx)

/-- The buffered death loop keeps the live counter equal to the number of
live slots and keeps the pool consistent, provided the kill buffer holds
distinct ids of live slots. -/
theorem killFold_inv : ∀ (tk : List ℕ) (s : BState),
    s.ga = liveCount s.orgs → tk.Nodup →
    (∀ e ∈ tk, ∃ o, s.orgs[e]? = some o ∧ o.dead = false) →
    PoolOk s.orgs s.pool →
    (tk.foldl killOne s).ga = liveCount (tk.foldl killOne s).orgs ∧
    PoolOk (tk.foldl killOne s).orgs (tk.foldl killOne s).pool := by
  intro tk
  induction tk with
  | nil => intro s h1 _ _ h4; exact ⟨h1, h4⟩
  | cons e rest ih =>
    intro s h1 hnd hlive hpool
    rw [List.foldl_cons]
    obtain ⟨o, ho, hod⟩ := hlive e (List.mem_cons_self e rest)
    obtain ⟨hlt, _⟩ := List.getElem?_eq_some.mp ho
    have hepool : e ∉ s.pool := by
      intro hmem
      obtain ⟨o2, ho2, hd2⟩ := hpool.2 e hmem
      rw [ho] at ho2
      cases ho2
      rw [hod] at hd2
      exact Bool.false_ne_true hd2
    have herest : e ∉ rest := (List.nodup_cons.mp hnd).1
    have hk : killOne s e =
        { orgs := s.orgs.set e { o with dead := true }
          occ := clearOcc s.occ o.x o.y
          ga := s.ga - 1
          pool := e :: s.pool } := by
      simp [killOne, ho]
    rw [hk]
    have hcount := liveCount_set_dead ho hod
    apply ih
    · simp only []
      omega
    · exact (List.nodup_cons.mp hnd).2
    · intro e2 he2
      obtain ⟨o2, ho2, hd2⟩ := hlive e2 (List.mem_cons_of_mem e he2)
      have hne : e ≠ e2 := fun hh => herest (hh ▸ he2)
      refine ⟨o2, ?_, hd2⟩
      simp only []
      rw [List.getElem?_set_ne hne]
      exact ho2
    · constructor
      · exact List.nodup_cons.mpr ⟨hepool, hpool.1⟩
      · intro e2 he2
        rcases List.mem_cons.mp he2 with he3 | he3
        · subst he3
          exact ⟨{ o with dead := true },
            by simp only []; rw [List.getElem?_set_eq_of_lt _ hlt], rfl⟩
        · obtain ⟨o2, ho2, hd2⟩ := hpool.2 e2 he3
          have hne : e ≠ e2 := fun hh => hepool (hh ▸ he3)
          refine ⟨o2, ?_, hd2⟩
          simp only []
          rw [List.getElem?_set_ne hne]
          exact ho2

/-- The buffered birth loop keeps the live counter equal to the number of
live slots and keeps the pool consistent: a reused slot was dead and
distinct from the remaining pooled slots, a fresh slot extends the
store. -/
theorem birthFold_inv : ∀ (bs : List Birth) (s : BState),
    s.ga = liveCount s.orgs → PoolOk s.orgs s.pool →
    (bs.foldl birthOne s).ga = liveCount (bs.foldl birthOne s).orgs ∧
    PoolOk (bs.foldl birthOne s).orgs (bs.foldl birthOne s).pool := by
  intro bs
  induction bs with
  | nil => intro s h1 h2; exact ⟨h1, h2⟩
  | cons b rest ih =>
    intro s h1 hpool
    rw [List.foldl_cons]
    cases hp : s.pool with
    | nil =>
      have hb : birthOne s b =
          { orgs := s.orgs ++
              [{ x := b.x, y := b.y, genes := b.genes, age := b.age,
                 maxAge := b.maxAge, energy := b.energy, dead := false }]
            occ := setOcc s.occ b.x b.y
            ga := s.ga + 1
            pool := [] } := by
        simp [birthOne, hp]
      rw [hb]
      apply ih
      · simp only []
        rw [liveCount_append_live s.orgs rfl, h1]
      · exact ⟨List.nodup_nil, by simp⟩
    | cons e restPool =>
      have hpe := hpool.2 e (by rw [hp]; exact List.mem_cons_self e restPool)
      obtain ⟨o, ho, hod⟩ := hpe
      have hb : birthOne s b =
          { orgs := s.orgs.set e
              { x := b.x, y := b.y, genes := b.genes, age := b.age,
                maxAge := b.maxAge, energy := b.energy, dead := false }
            occ := setOcc s.occ b.x b.y
            ga := s.ga + 1
            pool := restPool } := by
        simp [birthOne, hp]
      rw [hb]
      have hnd := hpool.1
      rw [hp] at hnd
      have hemem : e ∉ restPool := (List.nodup_cons.mp hnd).1
      apply ih
      · simp only []
        rw [liveCount_set_alive ho hod rfl, h1]
      · constructor
        · exact (List.nodup_cons.mp hnd).2
        · intro e2 he2
          obtain ⟨o2, ho2, hd2⟩ := hpool.2 e2 (by rw [hp]; exact List.mem_cons_of_mem e he2)
          have hne : e ≠ e2 := fun hh => hemem (hh ▸ he2)
          refine ⟨o2, ?_, hd2⟩
          simp only []
          rw [List.getElem?_set_ne hne]
          exact ho2

/-- One tick of the simulation systems preserves the agreement between
`grassAlive` and the number of live slots, together with pool
consistency. -/
theorem tickCore_live_inv (st : SimState) (ch : ℕ → Choice) (sunI : ℚ)
    (tick : ℕ) (h1 : st.grassAlive = liveCount st.orgs)
    (h2 : PoolOk st.orgs st.pool) :
    (tickCore st ch sunI tick).grassAlive =
      liveCount (tickCore st ch sunI tick).orgs ∧
    PoolOk (tickCore st ch sunI tick).orgs (tickCore st ch sunI tick).pool := by
  have hinv := passOf_inv st ch sunI
  have hskel : SameSkel st.orgs (passOf st ch sunI).orgs := hinv.skel
  have hlc : liveCount (passOf st ch sunI).orgs = liveCount st.orgs :=
    (sameSkel_liveCount hskel).symm
  have hkills : ∀ e ∈ (passOf st ch sunI).toKill,
      ∃ o, (passOf st ch sunI).orgs[e]? = some o ∧ o.dead = false := by
    intro e he
    obtain ⟨o, ho, hd⟩ := hinv.killLive e he
    obtain ⟨o2, ho2, hd2, _, _⟩ := sameSkel_some hskel ho
    exact ⟨o2, ho2, by rw [hd2, hd]⟩
  have hpool2 : PoolOk (passOf st ch sunI).orgs st.pool := by
    refine ⟨h2.1, fun e he => ?_⟩
    obtain ⟨o, ho, hd⟩ := h2.2 e he
    obtain ⟨o2, ho2, hd2, _, _⟩ := sameSkel_some hskel ho
    exact ⟨o2, ho2, by rw [hd2, hd]⟩
  have hkf := killFold_inv (passOf st ch sunI).toKill
    { orgs := (passOf st ch sunI).orgs, occ := st.occ,
      ga := st.grassAlive, pool := st.pool }
    (by simpa [hlc] using h1) hinv.killNodup hkills hpool2
  have hbf := birthFold_inv (passOf st ch sunI).births
    (deathsOf st (passOf st ch sunI)) hkf.1 hkf.2
  exact ⟨hbf.1, hbf.2⟩

/-- `saveTick` and the interval flush never touch the store, the live
counter, the pool, the occupancy index or the grid. -/
theorem serStep_sim_fields (tick : ℕ) (sim : SimState) (ser : SerState) :
    (serStep tick sim ser).1.orgs = sim.orgs ∧
    (serStep tick sim ser).1.grassAlive = sim.grassAlive ∧
    (serStep tick sim ser).1.pool = sim.pool ∧
    (serStep tick sim ser).1.grid = sim.grid := by
  simp only [serStep, saveTick]
  split <;> exact ⟨rfl, rfl, rfl, rfl⟩

/-- Initial seeding creates only live organisms and counts each one:
along `seedGrass` the live counter matches the store, cell by cell. -/
theorem seedFold_inv (grid : ℤ → Tile) (SC : ℤ → SeedChoice) :
    ∀ (cells : List (ℤ × ℤ)) (s : BState), s.ga = liveCount s.orgs →
    (cells.foldl (seedCell grid SC) s).ga =
      liveCount (cells.foldl (seedCell grid SC) s).orgs := by
  intro cells
  induction cells with
  | nil => intro s h; simpa using h
  | cons p rest ih =>
    intro s h
    rw [List.foldl_cons]
    apply ih
    simp only [seedCell]
    split
    · simp only []
      rw [liveCount_append_live s.orgs rfl, h]
    · exact h

/-- The live-population invariant along the whole run: after every tick
(and already at seeding time) `grassAlive` equals the number of slots
without the `Dead` marker, and the entity pool stays consistent. -/
theorem runSim_live_inv (T : TrigOracle) (O : ℕ → WorldDraws)
    (SC : ℤ → SeedChoice) (CH : ℕ → ℕ → Choice) : ∀ n : ℕ,
    (runSim T O SC CH n).1.grassAlive = liveCount (runSim T O SC CH n).1.orgs ∧
    PoolOk (runSim T O SC CH n).1.orgs (runSim T O SC CH n).1.pool := by
  intro n
  induction n with
  | zero =>
    constructor
    · show (initState T O SC).1.grassAlive = liveCount (initState T O SC).1.orgs
      simp only [initState]
      simp only [seedResult]
      exact seedFold_inv (generateWorld O T 42) SC cellList
        { orgs := [], occ := fun _ => false, ga := 0, pool := [] } rfl
    · show PoolOk (initState T O SC).1.orgs (initState T O SC).1.pool
      simp only [initState]
      exact ⟨List.nodup_nil, by simp⟩
  | succ m ih =>
    have hc := tickCore_live_inv (runSim T O SC CH m).1 (CH m)
      (sunlight T.sinA m) m ih.1 ih.2
    have hf := serStep_sim_fields m
      (tickCore (runSim T O SC CH m).1 (CH m) (sunlight T.sinA m) m)
      (runSim T O SC CH m).2
    constructor
    · show (serStep m _ _).1.grassAlive = liveCount (serStep m _ _).1.orgs
      rw [hf.1, hf.2.1]
      exact hc.1
    · show PoolOk (serStep m _ _).1.orgs (serStep m _ _).1.pool
      rw [hf.1, hf.2.2.1]
      exact hc.2

/-- A tile map whose water and nutrient stocks are everywhere
nonnegative. -/
def NonnegGrid (g : ℤ → Tile) : Prop :=
  ∀ i : ℤ, 0 ≤ (g i).water ∧ 0 ≤ (g i).nutrient

theorem nonnegGrid_setTile {g : ℤ → Tile} (h : NonnegGrid g) {x y : ℤ}
    {t : Tile} (hw : 0 ≤ t.water) (hn : 0 ≤ t.nutrient) :
    NonnegGrid (setTile g x y t) := by
  intro i
  unfold setTile
  split
  · exact ⟨hw, hn⟩
  · exact h i

theorem nonnegGrid_passStep {occ : ℤ → Bool} {sunI : ℚ} {ga0 : ℕ}
    {c : Choice} {i : ℕ} {ps : PassState} (h : NonnegGrid ps.grid) :
    NonnegGrid (passStep occ sunI ga0 c i ps).grid := by
  cases ho : ps.orgs[i]? with
  | none => simpa [passStep, ho] using h
  | some o =>
    cases hd : o.dead with
    | true => simpa [passStep, ho, hd] using h
    | false =>
      simp only [passStep, ho, hd, Bool.false_eq_true, if_false]
      obtain ⟨t, hg, hw, hn⟩ := passBody_grid occ sunI ga0 c i o ps
      rw [hg]
      exact nonnegGrid_setTile h hw hn

theorem nonnegGrid_runPass (occ : ℤ → Bool) (sunI : ℚ) (ga0 : ℕ)
    (ch : ℕ → Choice) : ∀ ps0 : PassState, NonnegGrid ps0.grid →
    NonnegGrid (runPass occ sunI ga0 ch ps0).grid := by
  intro ps0 h
  show NonnegGrid ((List.range ps0.orgs.length).foldl
    (fun ps i => passStep occ sunI ga0 (ch i) i ps) ps0).grid
  exact foldl_range_ind _ (fun (ps : PassState) _ => NonnegGrid ps.grid) _ _ h
    (fun x k _ hx => nonnegGrid_passStep hx)

theorem nonnegGrid_passOf (st : SimState) (ch : ℕ → Choice) (sunI : ℚ)
    (h : NonnegGrid st.grid) : NonnegGrid (passOf st ch sunI).grid :=
  nonnegGrid_runPass st.occ sunI st.grassAlive ch (initPS st) h

theorem nonnegGrid_rain {g : ℤ → Tile} (h : NonnegGrid g) :
    NonnegGrid (rain g) := by
  intro i
  unfold rain
  split
  · refine ⟨?_, (h i).2⟩
    have := (h i).1
    unfold RAIN_AMOUNT
    linarith
  · exact h i

theorem nonnegGrid_tickCore (st : SimState) (ch : ℕ → Choice) (sunI : ℚ)
    (tick : ℕ) (h : NonnegGrid st.grid) :
    NonnegGrid (tickCore st ch sunI tick).grid := by
  have hp := nonnegGrid_passOf st ch sunI h
  show NonnegGrid (if tick % RAIN_INTERVAL = 0 then rain (passOf st ch sunI).grid
    else (passOf st ch sunI).grid)
  split
  · exact nonnegGrid_rain hp
  · exact hp

theorem nonnegGrid_lakeFold :
    ∀ (cells : List (ℤ × ℤ)) (g : ℤ → Tile), NonnegGrid g →
    NonnegGrid (cells.foldl lakeCell g) := by
  intro cells
  induction cells with
  | nil => intro g h; simpa using h
  | cons p rest ih =>
    intro g h
    rw [List.foldl_cons]
    apply ih
    simp only [lakeCell]
    split
    · exact nonnegGrid_setTile h (by norm_num) (by norm_num)
    · exact h

theorem nonnegGrid_riverStep {T : TrigOracle} {d : WorldDraws} {i : ℕ}
    {s : RiverState} (h : NonnegGrid s.g) (step : ℕ) :
    NonnegGrid (riverStep T d i s step).g := by
  show NonnegGrid (setTile s.g _ _ _)
  exact nonnegGrid_setTile h (by norm_num)
    (h (idx (clampZ (truncQ s.x) 0 (WIDTH - 1))
        (clampZ (truncQ s.y) 0 (HEIGHT - 1)))).2

theorem nonnegGrid_riverFold (T : TrigOracle) (d : WorldDraws) (i : ℕ) :
    ∀ (n : ℕ) (s0 : RiverState), NonnegGrid s0.g →
    NonnegGrid ((List.range n).foldl (riverStep T d i) s0).g := by
  intro n s0 h
  exact foldl_range_ind _ (fun (s : RiverState) _ => NonnegGrid s.g) _ _ h
    (fun x k _ hx => nonnegGrid_riverStep hx k)

theorem nonnegGrid_runRiver (T : TrigOracle) (d : WorldDraws)
    {g0 : ℤ → Tile} (h : NonnegGrid g0) (i : ℕ) :
    NonnegGrid (runRiver T d g0 i) := by
  simp only [runRiver]
  exact nonnegGrid_riverFold T d i WIDTH.toNat _ h

theorem nonnegGrid_riversFold (T : TrigOracle) (d : WorldDraws) :
    ∀ (n : ℕ) (g : ℤ → Tile), NonnegGrid g →
    NonnegGrid ((List.range n).foldl (runRiver T d) g) := by
  intro n g h
  exact foldl_range_ind _ (fun g2 _ => NonnegGrid g2) _ _ h
    (fun x k _ hx => nonnegGrid_runRiver T d hx k)

/-- Every tile the terrain generator produces has nonnegative water and
nutrient: the defaults are 10 and 5000, lake tiles get 10 and 0, river
tiles get water 8 keeping their nutrient. -/
theorem nonnegGrid_generateWorld (O : ℕ → WorldDraws) (T : TrigOracle)
    (seed : ℕ) : NonnegGrid (generateWorld O T seed) := by
  simp only [generateWorld]
  have hlake : NonnegGrid (cellList.foldl lakeCell (fun _ => ({} : Tile))) :=
    nonnegGrid_lakeFold cellList _ (fun _ => by constructor <;> norm_num)
  exact nonnegGrid_riversFold T (O seed) 12 _ hlake

/-- The water/nutrient nonnegativity invariant along the whole run. -/
theorem runSim_nonneg (T : TrigOracle) (O : ℕ → WorldDraws)
    (SC : ℤ → SeedChoice) (CH : ℕ → ℕ → Choice) : ∀ n : ℕ,
    NonnegGrid (runSim T O SC CH n).1.grid := by
  intro n
  induction n with
  | zero =>
    show NonnegGrid (initState T O SC).1.grid
    simp only [initState]
    exact nonnegGrid_generateWorld O T 42
  | succ m ih =>
    have hc := nonnegGrid_tickCore (runSim T O SC CH m).1 (CH m)
      (sunlight T.sinA m) m ih
    have hf := serStep_sim_fields m
      (tickCore (runSim T O SC CH m).1 (CH m) (sunlight T.sinA m) m)
      (runSim T O SC CH m).2
    show NonnegGrid (serStep m _ _).1.grid
    rw [hf.2.2.2]
    exact hc

/-- C4: at the end of every tick of the run (and already right after
seeding) the live-population counter `grassAlive` — the `totalEntities`
value `saveTick` receives — equals exactly the number of store slots
whose `Dead` marker is not set.  Proved for every oracle choice by
induction over the run, through the main pass, the buffered death loop
(each kill flips one live slot), the buffered birth loop (each birth
revives one pooled dead slot or appends a live one) and the serializer
step (which never touches the store). -/
theorem c4_live_counter_matches_live_organisms (T : TrigOracle)
    (O : ℕ → WorldDraws) (SC : ℤ → SeedChoice) (CH : ℕ → ℕ → Choice)
    (n : ℕ) :
    (runSim T O SC CH n).1.grassAlive = liveCount (runSim T O SC CH n).1.orgs :=
  (runSim_live_inv T O SC CH n).1

/-- C6: in every reachable state of the run and for arbitrary gene
values (negative efficiencies included), no tile's water or nutrient is
ever negative: both uptakes subtract `min(stock, demand)` which never
exceeds the stock, death credits add `max(energy, floor) ≥ floor > 0`,
and rain only adds water. -/
theorem c6_tile_stocks_never_negative (T : TrigOracle)
    (O : ℕ → WorldDraws) (SC : ℤ → SeedChoice) (CH : ℕ → ℕ → Choice)
    (n : ℕ) (i : ℤ) :
    0 ≤ ((runSim T O SC CH n).1.grid i).water ∧
    0 ≤ ((runSim T O SC CH n).1.grid i).nutrient :=
  runSim_nonneg T O SC CH n i

/-- C10: within one tick, every buffered (hence materialized) birth had
its target cell tested against the occupancy index as it stood during
the main pass — before the buffered deaths of the same tick clear any
cell.  Therefore, provided every live organism's cell is marked occupied
at the start of the tick, no birth of tick `t` targets the cell of any
organism killed in tick `t`: a cell vacated by a death becomes available
to births only from the next tick on. -/
theorem c10_no_birth_on_cell_vacated_this_tick (st : SimState)
    (ch : ℕ → Choice) (sunI : ℚ)
    (hocc : ∀ o ∈ st.orgs, o.dead = false → st.occ (idx o.x o.y) = true) :
    ∀ b ∈ (passOf st ch sunI).births, ∀ e ∈ (passOf st ch sunI).toKill,
      ∀ o : Org, st.orgs[e]? = some o → idx b.x b.y ≠ idx o.x o.y := by
  intro b hb e he o ho heq
  have hinv := passOf_inv st ch sunI
  have hfree : st.occ (idx b.x b.y) = false := hinv.birthFree b hb
  obtain ⟨o0, ho0, hd0⟩ := hinv.killLive e he
  have hoo : o0 = o := by
    have : some o0 = some o := ho0.symm.trans ho
    exact Option.some.injEq o0 o ▸ this |> Option.some.inj
  subst hoo
  have hto : st.occ (idx o0.x o0.y) = true :=
    hocc o0 (List.getElem?_mem ho0) hd0
  rw [heq, hto] at hfree
  exact Bool.true_eq_false ▸ hfree

/-- The death-cause classification as the specification words it: three
mutually exclusive causes in fixed priority order — water starvation
first, then energy starvation at the small positive threshold 0.2, then
old age.  Modelled from the spec for comparison against `deathCheck`. -/
def deathCauseSpec (w en : ℚ) (age maxAge : ℤ) : DeathCause → Prop
  | DeathCause.water => w ≤ 0
  | DeathCause.energy => 0 < w ∧ en ≤ 0.2
  | DeathCause.oldAge => 0 < w ∧ 0.2 < en ∧ maxAge ≤ age

/-- C5: the death chain of the main pass fires cause `c` exactly when
the spec's mutually exclusive priority-ordered condition for `c` holds
(so at most one cause fires per organism per tick), and the nutrient
credited to the tile is `max(energy, 0.5)` for water starvation and
`max(energy, 1.0)` for energy starvation and old age. -/
theorem c5_death_priority_and_credits (w en : ℚ) (age maxAge : ℤ)
    (c : DeathCause) :
    (deathCheck w en age maxAge = some c ↔ deathCauseSpec w en age maxAge c) ∧
    deathCredit c en = max en (if c = DeathCause.water then 0.5 else 1.0) := by
  constructor
  · unfold deathCheck deathCauseSpec
    cases c <;> split_ifs with h1 h2 h3 <;> simp_all
  · cases c <;> simp [deathCredit]

theorem clampQ_bounds (v lo hi : ℚ) (h : lo ≤ hi) :
    lo ≤ clampQ v lo hi ∧ clampQ v lo hi ≤ hi := by
  unfold clampQ
  split_ifs <;> constructor <;> linarith

/-- C9: the sunlight model is a pure function of the tick (by
construction it reads only the tick and the fixed sine implementation,
none of the mutable simulation state); for every tick below `MAX_TICKS`
and any sine implementation bounded by 1 in absolute value, the day
length lies in [80, 120] — so the divisor and the truncated modulus
operand are never zero — and the returned intensity lies in [0, 1]. -/
theorem c9_sunlight_defined_and_bounded (sinA : ℚ → ℚ) (tick : ℕ)
    (hs : ∀ q : ℚ, -1 ≤ sinA q ∧ sinA q ≤ 1) (ht : tick < MAX_TICKS) :
    (80 : ℚ) ≤ dayLenOf sinA tick ∧ dayLenOf sinA tick ≤ 120 ∧
    dayLenOf sinA tick ≠ 0 ∧ (80 : ℤ) ≤ truncQ (dayLenOf sinA tick) ∧
    truncQ (dayLenOf sinA tick) ≠ 0 ∧
    0 ≤ sunlight sinA tick ∧ sunlight sinA tick ≤ 1 := by
  obtain ⟨hs1, hs2⟩ := hs (2 * PI * (((tick : ℤ) % SEASON_LENGTH : ℤ) : ℚ) /
    ((SEASON_LENGTH : ℤ) : ℚ))
  have hd1 : (80 : ℚ) ≤ dayLenOf sinA tick := by
    unfold dayLenOf DAY_LENGTH
    push_cast
    nlinarith
  have hd2 : dayLenOf sinA tick ≤ 120 := by
    unfold dayLenOf DAY_LENGTH
    push_cast
    nlinarith
  have hne : dayLenOf sinA tick ≠ 0 := by
    intro h0
    rw [h0] at hd1
    norm_num at hd1
  have htr : (80 : ℤ) ≤ truncQ (dayLenOf sinA tick) := by
    unfold truncQ
    rw [if_neg (by intro hlt; linarith)]
    rw [Int.le_floor]
    push_cast
    linarith
  have htrne : truncQ (dayLenOf sinA tick) ≠ 0 := by omega
  have hcl := clampQ_bounds
    ((1 : ℚ) - |(((tick : ℤ) % truncQ (dayLenOf sinA tick) : ℤ) : ℚ) /
      dayLenOf sinA tick * 2 - 1|) 0 1 (by norm_num)
  exact ⟨hd1, hd2, hne, htr, htrne, hcl.1, hcl.2⟩

/-- A concrete trig oracle, standing in for the platform libm. -/
def trigZero : TrigOracle := { cosA := fun _ => 1, sinA := fun _ => 0 }

/-- A concrete world-draw oracle, standing in for `mt19937_64(seed)`. -/
def drawsZero : ℕ → WorldDraws :=
  fun _ => { edgeAng := fun _ => 0, turn := fun _ _ => 0 }

/-- C8: terrain generation is deterministic in the seed.  All
run-to-run variation of `generateWorld` enters through the local
seed-initialized generator `Wrng(seed)` (abstracted by `O seed`) and the
fixed platform trigonometry; the global simulation generator and every
other piece of mutable state are untouched, so two runs with equal seeds
agree on every cell's type, water and nutrient bit for bit. -/
theorem c8_terrain_generation_deterministic (O : ℕ → WorldDraws)
    (T : TrigOracle) (s1 s2 : ℕ) (h : s1 = s2) (i : ℤ) :
    (generateWorld O T s1 i).type = (generateWorld O T s2 i).type ∧
    (generateWorld O T s1 i).water = (generateWorld O T s2 i).water ∧
    (generateWorld O T s1 i).nutrient = (generateWorld O T s2 i).nutrient := by
  subst h
  exact ⟨rfl, rfl, rfl⟩

/-- Witness for C8 at seed 42 and the grid's centre cell. -/
theorem c8_terrain_generation_deterministic_witness :
    (42 : ℕ) = 42 ∧
    (generateWorld drawsZero trigZero 42 (idx 100 100)).type =
      (generateWorld drawsZero trigZero 42 (idx 100 100)).type :=
  ⟨rfl, (c8_terrain_generation_deterministic drawsZero trigZero 42 42 rfl
    (idx 100 100)).1⟩

/-- Witness for C9 with the zero sine implementation at tick 7. -/
theorem c9_sunlight_defined_and_bounded_witness :
    (∀ q : ℚ, -1 ≤ (fun _ : ℚ => (0 : ℚ)) q ∧ (fun _ : ℚ => (0 : ℚ)) q ≤ 1) ∧
    7 < MAX_TICKS ∧
    (0 ≤ sunlight (fun _ : ℚ => (0 : ℚ)) 7 ∧
      sunlight (fun _ : ℚ => (0 : ℚ)) 7 ≤ 1) := by
  have hs : ∀ q : ℚ, -1 ≤ (fun _ : ℚ => (0 : ℚ)) q ∧
      (fun _ : ℚ => (0 : ℚ)) q ≤ 1 := by
    intro q
    norm_num
  have ht : 7 < MAX_TICKS := by norm_num [MAX_TICKS]
  have hmain := c9_sunlight_defined_and_bounded (fun _ : ℚ => (0 : ℚ)) 7 hs ht
  exact ⟨hs, ht, hmain.2.2.2.2.2⟩

/-- A zero gene record, used by the concrete test states. -/
def genesZero : Genes :=
  { sunlightEff := 0, waterEff := 0, nutrientEff := 0, decayRate := 0 }

/-- A live, mature, energetic parent at cell (0,0). -/
def parentA : Org :=
  { x := 0, y := 0, genes := genesZero, age := 40, maxAge := 100,
    energy := 0.6, dead := false }

/-- A live, mature, energetic parent at cell (2,0). -/
def parentB : Org :=
  { x := 2, y := 0, genes := genesZero, age := 40, maxAge := 100,
    energy := 0.6, dead := false }

/-- A tick-boundary state with the two parents flanking the free soil
cell (1,0): all tiles default soil, occupancy exactly at the parents'
cells, consistent live counter, empty pool. -/
def stTwoBirths : SimState :=
  { grid := fun _ => {}
    occ := fun i => decide (i = 0) || decide (i = 2)
    orgs := [parentA, parentB]
    pool := []
    grassAlive := 2
    energyDeaths := 0, waterDeaths := 0, oldAgeDeaths := 0,
    avgGrassEnergy := 0 }

/-- Draws under which parent A picks offset (1,0) and parent B picks
offset (-1,0): both reproduction targets are cell (1,0). -/
def chTwoBirths : ℕ → Choice := fun n =>
  if n = 0 then { u1 := 0.7, u2 := 0.5, g1 := 0, g2 := 0, g3 := 0, g4 := 0, g5 := 0 }
  else { u1 := 0.1, u2 := 0.5, g1 := 0, g2 := 0, g3 := 0, g4 := 0, g5 := 0 }

/-- Fallback organism for `List.getD`. -/
def defOrg : Org :=
  { x := -1, y := -1, genes := genesZero, age := 0, maxAge := 0,
    energy := 0, dead := true }

/-- Fallback birth record for `List.getD`. -/
def defBirth : Birth :=
  { x := -1, y := -1, genes := genesZero, age := 0, maxAge := 0, energy := 0 }

/-- C1: the occupancy index fails to be a bijection with live organisms'
positions.  From `stTwoBirths` — two live parents at (0,0) and (2,0) on
an all-soil grid with a consistent occupancy index — one tick under the
draws `chTwoBirths` buffers two births that both passed the
`!isOccupied` test against the tick-start occupancy, and the birth loop
materializes both without re-checking: slots 2 and 3 end the tick alive
and both at cell (1,0), so one occupied cell hosts two live organisms. -/
theorem c1_occupancy_bijection_violated :
    (tickCore stTwoBirths chTwoBirths 0 1).orgs.length = 4 ∧
    ((tickCore stTwoBirths chTwoBirths 0 1).orgs.getD 2 defOrg).dead = false ∧
    ((tickCore stTwoBirths chTwoBirths 0 1).orgs.getD 3 defOrg).dead = false ∧
    ((tickCore stTwoBirths chTwoBirths 0 1).orgs.getD 2 defOrg).x = 1 ∧
    ((tickCore stTwoBirths chTwoBirths 0 1).orgs.getD 3 defOrg).x = 1 ∧
    ((tickCore stTwoBirths chTwoBirths 0 1).orgs.getD 2 defOrg).y = 0 ∧
    ((tickCore stTwoBirths chTwoBirths 0 1).orgs.getD 3 defOrg).y = 0 := by
  norm_num [tickCore, passOf, runPass, initPS, passStep, passBody, birthsOf,
    deathsOf, stTwoBirths, chTwoBirths, parentA, parentB, genesZero, defOrg,
    atXY, setTile, idx, isOccupied, deathCheck, deathCredit, creditNutrient,
    truncQ, birthOne, killOne, setOcc, clearOcc, WIDTH, HEIGHT,
    MATURITY_AGE_SCALE, REPRODUCE_ENERGY, RAIN_INTERVAL, List.range_succ]

/-- C2: a materialized birth lands on a cell already hosting a live
organism.  In the `stTwoBirths` tick both buffered births target (1,0);
after the first is applied the cell is occupied, yet the second is
applied anyway, ending the tick live on the same cell. -/
theorem c2_birth_applied_onto_occupied_cell :
    (passOf stTwoBirths chTwoBirths 0).births.length = 2 ∧
    ((passOf stTwoBirths chTwoBirths 0).births.getD 0 defBirth).x = 1 ∧
    ((passOf stTwoBirths chTwoBirths 0).births.getD 0 defBirth).y = 0 ∧
    ((passOf stTwoBirths chTwoBirths 0).births.getD 1 defBirth).x = 1 ∧
    ((passOf stTwoBirths chTwoBirths 0).births.getD 1 defBirth).y = 0 ∧
    (birthOne (deathsOf stTwoBirths (passOf stTwoBirths chTwoBirths 0))
      ((passOf stTwoBirths chTwoBirths 0).births.getD 0 defBirth)).occ
        (idx 1 0) = true ∧
    ((tickCore stTwoBirths chTwoBirths 0 1).orgs.getD 3 defOrg).dead = false ∧
    ((tickCore stTwoBirths chTwoBirths 0 1).orgs.getD 3 defOrg).x = 1 ∧
    ((tickCore stTwoBirths chTwoBirths 0 1).orgs.getD 3 defOrg).y = 0 := by
  norm_num [tickCore, passOf, runPass, initPS, passStep, passBody, birthsOf,
    deathsOf, stTwoBirths, chTwoBirths, parentA, parentB, genesZero, defOrg,
    defBirth, atXY, setTile, idx, isOccupied, deathCheck, deathCredit,
    creditNutrient, truncQ, birthOne, killOne, setOcc, clearOcc, WIDTH,
    HEIGHT, MATURITY_AGE_SCALE, REPRODUCE_ENERGY, RAIN_INTERVAL,
    List.range_succ]

/-- A live organism at (0,0) for the serializer test state. -/
def liveSlot : Org :=
  { x := 0, y := 0, genes := genesZero, age := 3, maxAge := 60,
    energy := 1, dead := false }

/-- A dead, pooled organism slot at (5,5) that still holds all four
components. -/
def deadSlot : Org :=
  { x := 5, y := 5, genes := genesZero, age := 9, maxAge := 30,
    energy := 0.1, dead := true }

/-- A state with one live organism and one dead pooled slot. -/
def stDeadSlot : SimState :=
  { grid := fun _ => {}
    occ := fun i => decide (i = 0)
    orgs := [liveSlot, deadSlot]
    pool := [1]
    grassAlive := 1
    energyDeaths := 0, waterDeaths := 0, oldAgeDeaths := 0,
    avgGrassEnergy := 0 }

/-- An empty serializer state. -/
def serEmpty : SerState :=
  { vegCache := [], statsCache := [], vegStream := [], statsStream := [] }

/-- Fallback vegetation row for `List.getD`. -/
def defVegRow : VegRow :=
  { tick := 0, id := 0, x := 0, y := 0, age := 0, maxAge := 0, energy := 0,
    sunEff := 0, watEff := 0, nutEff := 0, decay := 0 }

/-- C3: `saveTick` iterates `view<Position,Age,Energy,Genes>` without
`exclude<Dead>`, so it appends a vegetation row for every slot holding
the four components — dead pooled slots included.  On `stDeadSlot`
(one live organism, one dead pooled slot) it buffers two rows for the
tick while only one organism is alive; the second row carries the dead
slot's position (5,5). -/
theorem c3_serializer_emits_row_for_dead_slot :
    (saveTick 3 stDeadSlot.grassAlive stDeadSlot serEmpty).2.vegCache.length = 2 ∧
    liveCount stDeadSlot.orgs = 1 ∧
    ((saveTick 3 stDeadSlot.grassAlive stDeadSlot serEmpty).2.vegCache.getD 1
      defVegRow).x = 5 ∧
    (stDeadSlot.orgs.getD 1 defOrg).dead = true := by
  norm_num [saveTick, vegRowsOf, stDeadSlot, liveSlot, deadSlot, serEmpty,
    defVegRow, defOrg, genesZero, liveCount, List.enum, List.countP,
    List.countP.go]

/-- Zero per-organism draws, for runs whose store is empty. -/
def chZero : ℕ → Choice :=
  fun _ => { u1 := 0, u2 := 0, g1 := 0, g2 := 0, g3 := 0, g4 := 0, g5 := 0 }

/-- A state with no organisms at all, for exercising the serializer
schedule alone. -/
def stEmptyWorld : SimState :=
  { grid := fun _ => {}
    occ := fun _ => false
    orgs := []
    pool := []
    grassAlive := 0
    energyDeaths := 0, waterDeaths := 0, oldAgeDeaths := 0,
    avgGrassEnergy := 0 }

/-- Ticks 0..5 of the main loop on the empty world. -/
def runSixTicks : SimState × SerState :=
  (List.range 6).foldl (fun p t => fullTick t chZero 0 p)
    (stEmptyWorld, serEmpty)

/-- `stEmptyWorld` with nonzero death counters, for observing the
counter reset. -/
def stCounters : SimState :=
  { stEmptyWorld with energyDeaths := 3, waterDeaths := 1, oldAgeDeaths := 2 }

/-- C7 counterexample: the statistics stream does not receive one row
per save interval, and the death counters are not reset only at
save-interval flushes.  Over ticks 0..5 (two flush events, at ticks 0
and 5, `SAVE_INTERVAL = 5`) the stats stream receives six rows — one
per tick, e.g. the row at position 3 carries tick 3 — and a `serStep` at
the non-flush tick 1 zeroes the counters while the stream stays empty
and only the buffer grows. -/
theorem c7_stats_interval_counterexample :
    runSixTicks.2.statsStream.length = 6 ∧ (6 : ℕ) ≠ 2 ∧
    (runSixTicks.2.statsStream.getD 3
      { tick := 0, totalEntities := 0, energyDeaths := 0, waterDeaths := 0,
        oldAgeDeaths := 0, avgGrassEnergy := 0 }).tick = 3 ∧
    (serStep 1 stCounters serEmpty).1.energyDeaths = 0 ∧
    (serStep 1 stCounters serEmpty).1.waterDeaths = 0 ∧
    (serStep 1 stCounters serEmpty).1.oldAgeDeaths = 0 ∧
    (serStep 1 stCounters serEmpty).2.statsStream = [] ∧
    (serStep 1 stCounters serEmpty).2.statsCache.length = 1 := by
  norm_num [runSixTicks, fullTick, serStep, saveTick, saveStatsCache,
    flushVegCache, flushStatsCache, tickCore, passOf, runPass, initPS,
    birthsOf, deathsOf, stEmptyWorld, stCounters, serEmpty, vegRowsOf, rain,
    SAVE_INTERVAL, RAIN_INTERVAL, List.range_succ, List.enum]

/-- C7 as amended: `saveTick` runs every tick, so every tick adds
exactly one stats row to the buffered stream (flushes only move rows
from buffer to stream) and zeroes the three death-cause counters — each
stats row therefore aggregates a single tick's deaths, and the stream
gains `SAVE_INTERVAL` rows per flush once the buffer is full. -/
theorem c7_stats_row_each_tick_counters_reset_each_tick (tick : ℕ)
    (sim : SimState) (ser : SerState) :
    (serStep tick sim ser).2.statsStream.length +
        (serStep tick sim ser).2.statsCache.length =
      ser.statsStream.length + ser.statsCache.length + 1 ∧
    (serStep tick sim ser).1.energyDeaths = 0 ∧
    (serStep tick sim ser).1.waterDeaths = 0 ∧
    (serStep tick sim ser).1.oldAgeDeaths = 0 := by
  simp only [serStep, saveTick, saveStatsCache, flushStatsCache, flushVegCache]
  split
  · refine ⟨?_, rfl, rfl, rfl⟩
    simp only [List.length_append, List.length_cons, List.length_nil]
    omega
  · refine ⟨?_, rfl, rfl, rfl⟩
    simp only [List.length_append, List.length_cons, List.length_nil]
    omega

/-- An organism that will die of water starvation this tick, at (0,0). -/
def dryOrg : Org :=
  { x := 0, y := 0, genes := genesZero, age := 10, maxAge := 100,
    energy := 0.1, dead := false }

/-- An organism that will reproduce this tick, at (3,0). -/
def fertileOrg : Org :=
  { x := 3, y := 0, genes := genesZero, age := 40, maxAge := 100,
    energy := 0.6, dead := false }

/-- A state where one organism dies (dry tile at (0,0)) and another
gives birth (onto (4,0)) in the same tick. -/
def stKillBirth : SimState :=
  { grid := fun i =>
      if i = 0 then { type := TileType.Soil, water := 0, nutrient := 5000 }
      else {}
    occ := fun i => decide (i = 0) || decide (i = 3)
    orgs := [dryOrg, fertileOrg]
    pool := []
    grassAlive := 2
    energyDeaths := 0, waterDeaths := 0, oldAgeDeaths := 0,
    avgGrassEnergy := 0 }

/-- Draws under which the fertile organism targets (4,0). -/
def chKillBirth : ℕ → Choice := fun n =>
  if n = 1 then { u1 := 0.7, u2 := 0.5, g1 := 0, g2 := 0, g3 := 0, g4 := 0, g5 := 0 }
  else { u1 := 0.5, u2 := 0.5, g1 := 0, g2 := 0, g3 := 0, g4 := 0, g5 := 0 }

/-- Witness for C10 on `stKillBirth`: the occupancy hypothesis holds and
the theorem applies. -/
theorem c10_no_birth_on_cell_vacated_this_tick_witness :
    (∀ o ∈ stKillBirth.orgs, o.dead = false →
      stKillBirth.occ (idx o.x o.y) = true) ∧
    (∀ b ∈ (passOf stKillBirth chKillBirth 0).births,
      ∀ e ∈ (passOf stKillBirth chKillBirth 0).toKill,
      ∀ o : Org, stKillBirth.orgs[e]? = some o →
        idx b.x b.y ≠ idx o.x o.y) := by
  have hocc : ∀ o ∈ stKillBirth.orgs, o.dead = false →
      stKillBirth.occ (idx o.x o.y) = true := by decide
  exact ⟨hocc, c10_no_birth_on_cell_vacated_this_tick stKillBirth
    chKillBirth 0 hocc⟩

end Ecosim
